import Mathlib

/-
Verification of productive-box-in-readme (`src/index.ts`).

The program is a single linear pipeline: identity lookup, contributed
repository listing, per-repository commit-history lookup, an aggregation
pass bucketing commit hours into four time-of-day counters, a text chart
rendering pass, and one read-modify-write of a README document delimited
by two literal marker comments.

External collaborators (the GraphQL executor, the REST document
read/write, `Date`/`Intl` local-hour conversion, base64 transport
encoding) are modelled as oracles supplying their results; everything the
pipeline itself computes is embedded from the source.  JavaScript numbers
appearing in rendering are modelled as exact rationals; document contents
are modelled as `List Char` (the base64-decoded bytes the program
manipulates).
-/

namespace ProductiveBox

/-- The four time-of-day bucket counters of the aggregation pass:
`let morning = 0; let daytime = 0; let evening = 0; let night = 0`. -/
structure Counters where
  morning : Nat
  daytime : Nat
  evening : Nat
  night : Nat
deriving DecidableEq

/-- All counters zero, the state before the aggregation loop runs. -/
def Counters.zero : Counters := ⟨0, 0, 0, 0⟩

/-- One iteration of the inner aggregation loop body for a single commit
edge whose local hour is `hour`: the four independent `if` statements

```
if (hour >= 6 && hour < 11) morning++;
if (hour >= 11 && hour < 18) daytime++;
if (hour >= 18 && hour < 23) evening++;
if ((hour >= 23 && hour < 24) || (hour >= 0 && hour < 6)) night++;
```
-/
def countHour (c : Counters) (hour : Nat) : Counters :=
  let c := if 6 ≤ hour ∧ hour < 11 then { c with morning := c.morning + 1 } else c
  let c := if 11 ≤ hour ∧ hour < 18 then { c with daytime := c.daytime + 1 } else c
  let c := if 18 ≤ hour ∧ hour < 23 then { c with evening := c.evening + 1 } else c
  let c := if (23 ≤ hour ∧ hour < 24) ∨ (0 ≤ hour ∧ hour < 6) then
    { c with night := c.night + 1 } else c
  c

/-- One per-repository history result as consumed by the aggregation loop.
`none` models an absent nested history path
(`committedTimeResponse?.data?...?.edges` short-circuiting to `undefined`),
which the `forEach` skips; `some hours` models the list of commit edges,
each reduced to its already-extracted local hour. -/
abbrev RepoHistory := Option (List Nat)

/-- The body of the outer aggregation loop for one repository response:
an absent history path contributes nothing, a present one feeds each
commit hour through the four counting `if`s. -/
def aggregateRepo (c : Counters) (r : RepoHistory) : Counters :=
  match r with
  | none => c
  | some hours => hours.foldl countHour c

/-- The aggregation pass `committedTimeResponseMap.forEach(...)`:
fold every repository response starting from all-zero counters. -/
def aggregate (results : List RepoHistory) : Counters :=
  results.foldl aggregateRepo Counters.zero

/-- `const sum = morning + daytime + evening + night`. -/
def Counters.total (c : Counters) : Nat :=
  c.morning + c.daytime + c.evening + c.night

/-- Number of commit edges carried by the present repository results
(absent results contribute nothing): the claim-side count against which
the bucket sum is compared. -/
def totalEdges (results : List RepoHistory) : Nat :=
  (results.map
    (fun r =>
      match r with
      | none => 0
      | some hours => hours.length)).sum

/-- Componentwise sum of two counter states (proof-side helper). -/
def Counters.add (a b : Counters) : Counters :=
  ⟨a.morning + b.morning, a.daytime + b.daytime,
   a.evening + b.evening, a.night + b.night⟩

theorem Counters.add_zero (c : Counters) : c.add Counters.zero = c := by
  cases c; simp [Counters.add, Counters.zero]

theorem Counters.add_assoc (a b c : Counters) :
    (a.add b).add c = a.add (b.add c) := by
  cases a; cases b; cases c
  simp [Counters.add]; omega

theorem Counters.add_comm (a b : Counters) : a.add b = b.add a := by
  cases a; cases b
  simp [Counters.add]; omega

theorem countHour_eq_add (c : Counters) (h : Nat) :
    countHour c h = c.add (countHour Counters.zero h) := by
  cases c
  simp only [countHour, Counters.add, Counters.zero]
  split_ifs <;> simp

theorem countHour_total (c : Counters) (h : Nat) (hh : h < 24) :
    (countHour c h).total = c.total + 1 := by
  cases c
  simp only [countHour, Counters.total]
  split_ifs <;> simp_all <;> omega

theorem foldl_countHour_eq_add (hours : List Nat) (c : Counters) :
    hours.foldl countHour c = c.add (hours.foldl countHour Counters.zero) := by
  induction hours generalizing c with
  | nil => simp [Counters.add_zero]
  | cons a t ih =>
    rw [List.foldl_cons, List.foldl_cons, ih (countHour c a),
      ih (countHour Counters.zero a), countHour_eq_add c a,
      Counters.add_assoc]

theorem foldl_countHour_total (hours : List Nat) (c : Counters)
    (hh : ∀ h ∈ hours, h < 24) :
    (hours.foldl countHour c).total = c.total + hours.length := by
  induction hours generalizing c with
  | nil => simp
  | cons a t ih =>
    rw [List.foldl_cons, ih (countHour c a) (fun h hm => hh h (by simp [hm])),
      countHour_total c a (hh a (by simp))]
    simp; omega

theorem aggregateRepo_eq_add (c : Counters) (r : RepoHistory) :
    aggregateRepo c r = c.add (aggregateRepo Counters.zero r) := by
  cases r with
  | none => simp [aggregateRepo, Counters.add_zero]
  | some hours =>
    simp only [aggregateRepo]
    exact foldl_countHour_eq_add hours c

theorem aggregateRepo_comm (c : Counters) (r₁ r₂ : RepoHistory) :
    aggregateRepo (aggregateRepo c r₁) r₂
      = aggregateRepo (aggregateRepo c r₂) r₁ := by
  rw [aggregateRepo_eq_add c r₁, aggregateRepo_eq_add c r₂,
    aggregateRepo_eq_add (c.add (aggregateRepo Counters.zero r₁)) r₂,
    aggregateRepo_eq_add (c.add (aggregateRepo Counters.zero r₂)) r₁,
    Counters.add_assoc, Counters.add_assoc,
    Counters.add_comm (aggregateRepo Counters.zero r₁)]

theorem aggregateRepo_total (c : Counters) (r : RepoHistory)
    (hh : ∀ h ∈ r.getD [], h < 24) :
    (aggregateRepo c r).total = c.total + (r.getD []).length := by
  cases r with
  | none => simp [aggregateRepo]
  | some hours =>
    simpa [aggregateRepo] using foldl_countHour_total hours c (by simpa using hh)

theorem foldl_aggregateRepo_total (results : List RepoHistory) (c : Counters)
    (hh : ∀ r ∈ results, ∀ h ∈ r.getD [], h < 24) :
    (results.foldl aggregateRepo c).total = c.total + totalEdges results := by
  induction results generalizing c with
  | nil => simp [totalEdges]
  | cons r t ih =>
    rw [List.foldl_cons, ih (aggregateRepo c r) (fun x hx => hh x (by simp [hx])),
      aggregateRepo_total c r (hh r (by simp))]
    cases r <;> (simp [totalEdges]; try omega)

/-- C1: over any list of per-repository history results whose hours are
genuine hours of day, the four bucket counters after the aggregation pass
sum to exactly the number of commit edges carried by the present results:
no edge is double-counted and none is dropped, except edges of absent
repository results. -/
theorem aggregate_total_eq_totalEdges (results : List RepoHistory)
    (hh : ∀ r ∈ results, ∀ h ∈ r.getD [], h < 24) :
    (aggregate results).total = totalEdges results := by
  simpa [Counters.zero, Counters.total] using
    foldl_aggregateRepo_total results Counters.zero hh

/-- Witness for C1 at a concrete input: three repository results, one
absent, carrying five commit edges in total. -/
theorem aggregate_total_eq_totalEdges_witness :
    (aggregate [some [7, 23], none, some [0, 12, 18]]).total
      = totalEdges [some [7, 23], none, some [0, 12, 18]] :=
  aggregate_total_eq_totalEdges [some [7, 23], none, some [0, 12, 18]]
    (by decide)

/-- C2: hour-to-bucket classification is total and disjoint: running the
counting `if`s on any hour in [0,24) from all-zero counters increments the
total by exactly one (so exactly one of the four conditions fires), and
the boundary hours 6, 11, 18, 23, 0 land in Morning, Daytime, Evening,
Night, Night respectively, per the half-open intervals. -/
theorem hour_bucket_partition (h : Nat) (hh : h < 24) :
    (countHour Counters.zero h).total = 1 ∧
    countHour Counters.zero 6 = ⟨1, 0, 0, 0⟩ ∧
    countHour Counters.zero 11 = ⟨0, 1, 0, 0⟩ ∧
    countHour Counters.zero 18 = ⟨0, 0, 1, 0⟩ ∧
    countHour Counters.zero 23 = ⟨0, 0, 0, 1⟩ ∧
    countHour Counters.zero 0 = ⟨0, 0, 0, 1⟩ := by
  refine ⟨?_, by decide, by decide, by decide, by decide, by decide⟩
  interval_cases h <;> decide

/-- Witness for C2 at the concrete hour 13. -/
theorem hour_bucket_partition_witness :
    (countHour Counters.zero 13).total = 1 ∧
    countHour Counters.zero 6 = ⟨1, 0, 0, 0⟩ ∧
    countHour Counters.zero 11 = ⟨0, 1, 0, 0⟩ ∧
    countHour Counters.zero 18 = ⟨0, 0, 1, 0⟩ ∧
    countHour Counters.zero 23 = ⟨0, 0, 0, 1⟩ ∧
    countHour Counters.zero 0 = ⟨0, 0, 0, 1⟩ :=
  hour_bucket_partition 13 (by decide)

/-- C8: the aggregation pass is commutative over repository order: any
permutation of the per-repository results yields identical bucket
counters. -/
theorem aggregate_perm (l₁ l₂ : List RepoHistory) (p : l₁.Perm l₂) :
    aggregate l₁ = aggregate l₂ := by
  unfold aggregate
  exact p.foldl_eq' (fun x _ y _ z => aggregateRepo_comm z x y) Counters.zero

/-- Witness for C8: three independent repository results supplied in two
different orders aggregate identically. -/
theorem aggregate_perm_witness :
    aggregate [some [7, 23], some [2], some [0, 12, 18]]
      = aggregate [some [2], some [0, 12, 18], some [7, 23]] :=
  aggregate_perm [some [7, 23], some [2], some [0, 12, 18]]
    [some [2], some [0, 12, 18], some [7, 23]] (by decide)

/-! ### Title selection and bar rendering -/

/-- The day-activity title string of the ternary in `index.ts`. -/
def dayTitle : String := "Я активнее днём"

/-- The night-activity title string of the ternary in `index.ts`. -/
def nightTitle : String := "Я активнее ночью"

/-- `const title = (morning + daytime) > (evening + night) ? ... : ...`. -/
def selectTitle (c : Counters) : String :=
  if c.morning + c.daytime > c.evening + c.night then dayTitle else nightTitle

/-- Counterexample for C3: at the tie counters (1,1,1,1) — day sum equals
night sum — the code selects the night title, not the day title the claim
names. -/
theorem selectTitle_tie_counterexample :
    let c : Counters := ⟨1, 1, 1, 1⟩
    c.morning + c.daytime = c.evening + c.night ∧
    selectTitle c = nightTitle ∧ nightTitle ≠ dayTitle := by
  refine ⟨rfl, by decide, by decide⟩

/-- C3 (amended): the title selection compares (morning + daytime) against
(evening + night) with a strict greater-than, so a tie falls to the
"more active by night" branch. -/
theorem selectTitle_tie (c : Counters)
    (h : c.morning + c.daytime = c.evening + c.night) :
    selectTitle c = nightTitle := by
  unfold selectTitle
  rw [if_neg (by omega)]

/-- Witness for C3 (amended) at the concrete tie counters (1,1,1,1). -/
theorem selectTitle_tie_witness : selectTitle ⟨1, 1, 1, 1⟩ = nightTitle :=
  selectTitle_tie ⟨1, 1, 1, 1⟩ (by decide)

/-- Modelled from the spec: the file `src/generateBarChart.ts` that
`index.ts` imports is not under `src/`, so the renderer is taken from
§4.4: "given percent and a fixed total bar width W, produce a string of
round(percent / 100 * W) filled characters followed by (W - filled) empty
characters, using two fixed glyphs".  The JavaScript float `percent` is
modelled as an exact rational. -/
def generateBarChart (percent : ℚ) (size : Nat) : List Char :=
  let filled : Int := round (percent / 100 * size)
  List.replicate filled.toNat '█' ++ List.replicate (size - filled.toNat) '░'

/-- Number of filled glyphs in a rendered bar. -/
def countFilled (bar : List Char) : Nat := bar.count '█'

theorem round_mono_rat {x y : ℚ} (h : x ≤ y) : round x ≤ round y := by
  rw [round_eq, round_eq]
  exact Int.floor_le_floor (by linarith)

theorem countFilled_generateBarChart (p : ℚ) (w : Nat) :
    countFilled (generateBarChart p w) = (round (p / 100 * w)).toNat := by
  simp [countFilled, generateBarChart, List.count_replicate]

/-- C9: for the fixed bar width 21, the filled-glyph count of the rendered
bar equals `round(percent / 100 * 21)` (whenever the percent is
non-negative, so the count fits a natural number), and a strictly greater
percent never yields a smaller filled count. -/
theorem generateBarChart_filled_monotone (p₁ p₂ : ℚ) :
    (p₁ < p₂ →
      countFilled (generateBarChart p₁ 21) ≤ countFilled (generateBarChart p₂ 21)) ∧
    (0 ≤ p₁ →
      (countFilled (generateBarChart p₁ 21) : Int) = round (p₁ / 100 * 21)) := by
  constructor
  · intro hlt
    rw [countFilled_generateBarChart, countFilled_generateBarChart]
    exact Int.toNat_le_toNat (round_mono_rat (by nlinarith))
  · intro hp
    rw [countFilled_generateBarChart]
    refine Int.toNat_of_nonneg ?_
    rw [round_eq]
    exact Int.floor_nonneg.mpr (by nlinarith)

/-- Witness for C9 at the concrete percents 25 and 50. -/
theorem generateBarChart_filled_monotone_witness :
    ((25 : ℚ) < 50 →
      countFilled (generateBarChart 25 21) ≤ countFilled (generateBarChart 50 21)) ∧
    ((0 : ℚ) ≤ 25 →
      (countFilled (generateBarChart 25 21) : Int) = round ((25 : ℚ) / 100 * 21)) :=
  generateBarChart_filled_monotone 25 50

/-! ### Marker-delimited section replacement -/

/-- `const startComment = '<!--START_SECTION:productive-box-in-readme-->'`. -/
def startComment : List Char := "<!--START_SECTION:productive-box-in-readme-->".data

/-- `const endComment = '<!--END_SECTION:productive-box-in-readme-->'`. -/
def endComment : List Char := "<!--END_SECTION:productive-box-in-readme-->".data

/-- Index of the first occurrence of the literal pattern `pat` as a
contiguous sublist of `s` — the leftmost match position at which a regex
engine matches a literal. -/
def findSub (pat : List Char) : List Char → Option Nat
  | [] => if pat.isPrefixOf ([] : List Char) then some 0 else none
  | c :: s =>
    if pat.isPrefixOf (c :: s) then some 0
    else (findSub pat s).map (· + 1)

theorem findSub_isPrefix (pat : List Char) :
    ∀ (s : List Char) (n : Nat), findSub pat s = some n →
      pat.isPrefixOf (s.drop n) = true := by
  intro s
  induction s with
  | nil =>
    intro n h
    simp [findSub] at h
    obtain ⟨rfl, rfl⟩ := h
    simp
  | cons c s ih =>
    intro n h
    by_cases hp : pat.isPrefixOf (c :: s)
    · simp only [findSub, if_pos hp, Option.some.injEq] at h
      subst h
      simpa using hp
    · simp only [findSub, if_neg hp, Option.map_eq_some'] at h
      obtain ⟨m, hm, rfl⟩ := h
      simpa [List.drop_succ_cons] using ih m hm

theorem findSub_min (pat : List Char) :
    ∀ (s : List Char) (n : Nat), findSub pat s = some n →
      ∀ k < n, pat.isPrefixOf (s.drop k) = false := by
  intro s
  induction s with
  | nil =>
    intro n h k hk
    simp [findSub] at h
    obtain ⟨rfl, rfl⟩ := h
    omega
  | cons c s ih =>
    intro n h k hk
    by_cases hp : pat.isPrefixOf (c :: s)
    · simp only [findSub, if_pos hp, Option.some.injEq] at h
      omega
    · simp only [findSub, if_neg hp, Option.map_eq_some'] at h
      obtain ⟨m, hm, rfl⟩ := h
      cases k with
      | zero => rw [List.drop_zero]; exact Bool.eq_false_iff.mpr hp
      | succ k => simpa [List.drop_succ_cons] using ih m hm k (by omega)

theorem findSub_complete (pat : List Char) :
    ∀ (s : List Char) (n : Nat), pat.isPrefixOf (s.drop n) = true →
      ∃ m, findSub pat s = some m ∧ m ≤ n := by
  intro s
  induction s with
  | nil =>
    intro n h
    simp only [List.drop_nil] at h
    exact ⟨0, by simp [findSub, h], Nat.zero_le n⟩
  | cons c s ih =>
    intro n h
    by_cases hp : pat.isPrefixOf (c :: s)
    · exact ⟨0, by simp [findSub, hp], Nat.zero_le n⟩
    · cases n with
      | zero => rw [List.drop_zero] at h; exact absurd h hp
      | succ n =>
        rw [List.drop_succ_cons] at h
        obtain ⟨m, hm, hle⟩ := ih n h
        refine ⟨m + 1, ?_, by omega⟩
        simp only [findSub]
        rw [if_neg hp, hm]
        rfl

/-- A pattern occurring at `n` and at no earlier position is found at `n`. -/
theorem findSub_of (pat s : List Char) (n : Nat)
    (hocc : pat.isPrefixOf (s.drop n) = true)
    (hmin : ∀ k < n, pat.isPrefixOf (s.drop k) = false) :
    findSub pat s = some n := by
  obtain ⟨m, hm, hle⟩ := findSub_complete pat s n hocc
  rcases Nat.lt_or_ge m n with hlt | hge
  · have := findSub_isPrefix pat s m hm
    rw [hmin m hlt] at this
    cases this
  · have : m = n := by omega
    subst this
    exact hm

/-- The regex replacement
`readmeContent.replace(new RegExp(startComment + '[\d\D]*?' + endComment), sec)`:
the leftmost span running from the start marker to the nearest following
end marker (non-greedy), both markers included, is replaced by `sec`;
content without such a span is returned unchanged. -/
def replaceSpan (s sec : List Char) : List Char :=
  match findSub startComment s with
  | none => s
  | some i =>
    let tail := s.drop (i + startComment.length)
    match findSub endComment tail with
    | none => s
    | some j => s.take i ++ sec ++ tail.drop (j + endComment.length)

/-- `const sectionContent = startComment + newline + body + newline + endComment`. -/
def sectionContent (body : List Char) : List Char :=
  startComment ++ '\n' :: (body ++ '\n' :: endComment)

/-- Whether the content holds a start marker with an end marker somewhere
after it — i.e. whether the section regex matches at all. -/
def hasMarkerPair (s : List Char) : Bool :=
  match findSub startComment s with
  | none => false
  | some i => (findSub endComment (s.drop (i + startComment.length))).isSome

theorem replaceSpan_marked (p m q sec : List Char)
    (h1 : ∀ k < p.length,
      startComment.isPrefixOf ((p ++ (startComment ++ (m ++ (endComment ++ q)))).drop k) = false)
    (h2 : ∀ k < m.length,
      endComment.isPrefixOf ((m ++ (endComment ++ q)).drop k) = false) :
    replaceSpan (p ++ (startComment ++ (m ++ (endComment ++ q)))) sec = p ++ sec ++ q := by
  have hdrop1 : (p ++ (startComment ++ (m ++ (endComment ++ q)))).drop p.length
      = startComment ++ (m ++ (endComment ++ q)) := List.drop_left p _
  have hstart : findSub startComment (p ++ (startComment ++ (m ++ (endComment ++ q))))
      = some p.length := by
    apply findSub_of
    · rw [hdrop1]; simp
    · exact h1
  have hdrop2 : (p ++ (startComment ++ (m ++ (endComment ++ q)))).drop
      (p.length + startComment.length) = m ++ (endComment ++ q) := by
    rw [← List.append_assoc p startComment]
    exact List.drop_left' (by simp)
  have hdropm : (m ++ (endComment ++ q)).drop m.length = endComment ++ q :=
    List.drop_left m _
  have hend : findSub endComment (m ++ (endComment ++ q)) = some m.length := by
    apply findSub_of
    · rw [hdropm]; simp
    · exact h2
  have hdrop3 : (m ++ (endComment ++ q)).drop (m.length + endComment.length) = q := by
    rw [← List.append_assoc m endComment]
    exact List.drop_left' (by simp)
  simp only [replaceSpan, hstart, hdrop2, hend, hdrop3]
  rw [List.take_left]

/-- C5: a document body of shape `p ++ START ++ m ++ END ++ q` — the start
marker at its leftmost occurrence, `m` arbitrary interior content
(newlines included) free of the end marker — is rewritten so that exactly
the shortest span from the start marker through the nearest following end
marker is replaced by the freshly rendered section wrapped in the same two
markers, while every byte outside the span (`p` and `q`) is preserved. -/
theorem marker_replacement_spec (p m q body : List Char)
    (h1 : ∀ k < p.length,
      startComment.isPrefixOf ((p ++ (startComment ++ (m ++ (endComment ++ q)))).drop k) = false)
    (h2 : ∀ k < m.length,
      endComment.isPrefixOf ((m ++ (endComment ++ q)).drop k) = false) :
    replaceSpan (p ++ (startComment ++ (m ++ (endComment ++ q)))) (sectionContent body)
      = p ++ sectionContent body ++ q :=
  replaceSpan_marked p m q (sectionContent body) h1 h2

/-- Witness for C5 at a concrete document: prefix "a", interior old
content "old\n", suffix "z", new body "new". -/
theorem marker_replacement_spec_witness :
    replaceSpan ("a".data ++ startComment ++ "old\n".data ++ endComment ++ "z".data)
        (sectionContent "new".data)
      = "a".data ++ sectionContent "new".data ++ "z".data :=
  marker_replacement_spec "a".data "old\n".data "z".data "new".data
    (by decide) (by decide)

/-- A content in which the section regex does not match (no start marker
followed by an end marker) is returned unchanged by the replacement. -/
theorem replaceSpan_no_pair (s sec : List Char) (h : hasMarkerPair s = false) :
    replaceSpan s sec = s := by
  cases hfs : findSub startComment s with
  | none => simp only [replaceSpan, hfs]
  | some i =>
    simp only [hasMarkerPair, hfs] at h
    cases hfe : findSub endComment (s.drop (i + startComment.length)) with
    | none => simp only [replaceSpan, hfs, hfe]
    | some j => rw [hfe] at h; simp at h

/-! ### Chart rendering -/

/-- `String.prototype.padStart` with the default space fill: pad on the
left up to `n`; longer input is returned unchanged. -/
def padStart (s : List Char) (n : Nat) : List Char :=
  List.replicate (n - s.length) ' ' ++ s

/-- `String.prototype.padEnd` with the default space fill: pad on the
right up to `n`; longer input is returned unchanged. -/
def padEnd (s : List Char) (n : Nat) : List Char :=
  s ++ List.replicate (n - s.length) ' '

/-- `percent.toFixed(1)` for the non-negative percents of the chart:
round to one decimal and print with exactly one digit after the point. -/
def toFixed1 (p : ℚ) : List Char :=
  let t : Int := round (p * 10)
  (toString (t / 10)).data ++ '.' :: (toString (t % 10)).data

/-- One row of the chart, the `line.join(' ')` of

```
[label.padEnd(10), (commits.toString().padStart(5) + ' изменений').padEnd(14),
 generateBarChart(percent, 21), String(percent.toFixed(1)).padStart(5) + '%']
```

with `percent = commits / sum * 100`. -/
def chartLine (label : String) (commits sum : Nat) : List Char :=
  let percent : ℚ := (commits : ℚ) / (sum : ℚ) * 100
  padEnd label.data 10
    ++ ' ' :: (padEnd (padStart (toString commits).data 5 ++ " изменений".data) 14
    ++ ' ' :: (generateBarChart percent 21
    ++ ' ' :: (padStart (toFixed1 percent) 5 ++ "%".data)))

/-- `const productiveBoxContent = '```text\n' + title + '\n\n' +
lines.join('\n') + '\n```'` over the four rows in Morning, Daytime,
Evening, Night order. -/
def productiveBoxContent (c : Counters) : List Char :=
  let sum := c.total
  let lines : List (List Char) :=
    [chartLine "🌞 Утро" c.morning sum,
     chartLine "🌆 День" c.daytime sum,
     chartLine "🌃 Вечер" c.evening sum,
     chartLine "🌙 Ночь" c.night sum]
  "```text\n".data ++ (selectTitle c).data ++ "\n\n".data
    ++ List.intercalate "\n".data lines ++ "\n```".data

/-! ### The pipeline -/

/-- `const { login: username, id } = userResponse?.data?.viewer`. -/
structure Identity where
  login : String
  id : String
deriving DecidableEq

/-- One node of `repositoriesContributedTo.nodes`. -/
structure RepoInfo where
  name : String
  owner : String
  isFork : Bool
deriving DecidableEq

/-- The README read result as the program consumes it: the base64-decoded
`readme.data.content` and the revision token `readme.data.sha`. -/
structure Readme where
  content : List Char
  sha : String
deriving DecidableEq

/-- The observable arguments of the final `createOrUpdateFile` call: the
written content (base64-decoded) and the revision token passed along. -/
structure WriteCall where
  content : List Char
  sha : String
deriving DecidableEq

/-- Results of the four external calls, supplied as oracles.  `none`
models the call failing, in which case its `.catch` logs the error and the
awaited expression yields `undefined`. -/
structure Env where
  identityResult : Option Identity
  repoListResult : Option (List RepoInfo)
  historyBatch : Option (List RepoHistory)
  readmeResult : Option Readme

/-- How the async top-level unit ends. -/
inductive Outcome where
  /-- An uncaught `TypeError` escapes the async unit as an unhandled
  promise rejection. -/
  | crash
  /-- A guarded `return` after a logged failure or a zero grand total. -/
  | earlyReturn
  /-- The unit ran to its end, having issued the document write. -/
  | completed
deriving DecidableEq

/-- What a run did: how it ended, whether the document read was issued,
and the document write call when one was issued. -/
structure RunResult where
  outcome : Outcome
  readInvoked : Bool
  writeCall : Option WriteCall
deriving DecidableEq

/-- The async IIFE of `index.ts` over the external-call oracles.

* identity failure: the catch yields `undefined`, and
  `const { login, id } = userResponse?.data?.viewer` destructures
  `undefined` — a `TypeError`, hence `crash`;
* repo-list failure: `repos` is `undefined`, and `repos.map(...)`
  throws — `crash`;
* history-batch failure: `if (!committedTimeResponseMap) return`;
* zero grand total: `if (!sum) return` before the README read;
* README read failure: `if (!readme) return`;
* otherwise the marker span of the decoded content is replaced by the
  freshly rendered section and written back under the sha just read. -/
def runPipeline (env : Env) : RunResult :=
  match env.identityResult with
  | none => ⟨Outcome.crash, false, none⟩
  | some _ =>
    match env.repoListResult with
    | none => ⟨Outcome.crash, false, none⟩
    | some nodes =>
      let _repos := (nodes.filter (fun r => !r.isFork)).map
        (fun r => (r.name, r.owner))
      match env.historyBatch with
      | none => ⟨Outcome.earlyReturn, false, none⟩
      | some results =>
        let c := aggregate results
        if c.total = 0 then ⟨Outcome.earlyReturn, false, none⟩
        else
          match env.readmeResult with
          | none => ⟨Outcome.earlyReturn, true, none⟩
          | some readme =>
            let newContent :=
              replaceSpan readme.content (sectionContent (productiveBoxContent c))
            ⟨Outcome.completed, true, some ⟨newContent, readme.sha⟩⟩

/-- C4 (code refutation): the claim says every failing operation is caught,
logged, and followed by an early `return`.  That holds for the
commit-history batch, the document read and the document write, but not
for the first two lookups: an identity failure is logged by its `.catch`
and then `const { login, id } = userResponse?.data?.viewer` destructures
`undefined`, and a repo-list failure leaves `repos` as `undefined` so
`repos.map(...)` throws — in both runs a `TypeError` escapes the async
unit as an unhandled rejection instead of an early return. -/
theorem lookup_failure_crashes :
    runPipeline ⟨none, some [], some [some [12]], none⟩
      = ⟨Outcome.crash, false, none⟩ ∧
    runPipeline ⟨some ⟨"user", "id"⟩, none, some [some [12]], none⟩
      = ⟨Outcome.crash, false, none⟩ :=
  ⟨rfl, rfl⟩

/-- C6: when the aggregated grand total is zero the run returns before
rendering: the document read is never issued and no write call is made. -/
theorem zero_sum_skips_read_and_write (env : Env) (idv : Identity)
    (nodes : List RepoInfo) (results : List RepoHistory)
    (h1 : env.identityResult = some idv)
    (h2 : env.repoListResult = some nodes)
    (h3 : env.historyBatch = some results)
    (h4 : (aggregate results).total = 0) :
    runPipeline env = ⟨Outcome.earlyReturn, false, none⟩ := by
  obtain ⟨i, rl, hb, rm⟩ := env
  simp only at h1 h2 h3
  subst h1; subst h2; subst h3
  simp [runPipeline, h4]

/-- Witness for C6: a present but commit-free history batch leads to the
zero-total early return. -/
theorem zero_sum_skips_read_and_write_witness :
    runPipeline ⟨some ⟨"u", "i"⟩, some [], some [none, some []],
        some ⟨"x".data, "s"⟩⟩
      = ⟨Outcome.earlyReturn, false, none⟩ :=
  zero_sum_skips_read_and_write _ ⟨"u", "i"⟩ [] [none, some []]
    rfl rfl rfl (by decide)

/-- C7: a document write is only ever issued by a run that reached its
end — every failure of an earlier stage (and every crash) leaves the
document untouched — and the write carries the revision token obtained
from the immediately preceding document read. -/
theorem write_only_after_full_run (env : Env) (w : WriteCall)
    (hw : (runPipeline env).writeCall = some w) :
    (runPipeline env).outcome = Outcome.completed ∧
    ∃ readme, env.readmeResult = some readme ∧ w.sha = readme.sha := by
  obtain ⟨i, rl, hb, rm⟩ := env
  cases i with
  | none => simp [runPipeline] at hw
  | some iv =>
    cases rl with
    | none => simp [runPipeline] at hw
    | some nodes =>
      cases hb with
      | none => simp [runPipeline] at hw
      | some results =>
        by_cases hz : (aggregate results).total = 0
        · simp [runPipeline, hz] at hw
        · cases rm with
          | none => simp [runPipeline, hz] at hw
          | some readme =>
            simp [runPipeline, hz] at hw
            subst hw
            exact ⟨by simp [runPipeline, hz], readme, rfl, rfl⟩

/-- Witness for C7 at a concrete successful run. -/
theorem write_only_after_full_run_witness :
    (runPipeline ⟨some ⟨"u", "i"⟩, some [], some [some [12]],
        some ⟨"abc".data, "sha1"⟩⟩).outcome = Outcome.completed ∧
    ∃ readme,
      (Env.mk (some ⟨"u", "i"⟩) (some []) (some [some [12]])
          (some ⟨"abc".data, "sha1"⟩)).readmeResult = some readme ∧
      (WriteCall.mk
          (replaceSpan "abc".data
            (sectionContent (productiveBoxContent (aggregate [some [12]]))))
          "sha1").sha = readme.sha :=
  write_only_after_full_run
    ⟨some ⟨"u", "i"⟩, some [], some [some [12]], some ⟨"abc".data, "sha1"⟩⟩
    ⟨replaceSpan "abc".data
      (sectionContent (productiveBoxContent (aggregate [some [12]]))), "sha1"⟩
    rfl

/-- C10: when the decoded README holds no start-marker/end-marker pair,
the replacement leaves it unchanged and the run still issues the write,
whose (decoded) content is byte-identical to the content just read — the
markers are not inserted and the write is not skipped. -/
theorem no_marker_pair_writes_unchanged (env : Env) (idv : Identity)
    (nodes : List RepoInfo) (results : List RepoHistory) (readme : Readme)
    (h1 : env.identityResult = some idv)
    (h2 : env.repoListResult = some nodes)
    (h3 : env.historyBatch = some results)
    (h4 : (aggregate results).total ≠ 0)
    (h5 : env.readmeResult = some readme)
    (h6 : hasMarkerPair readme.content = false) :
    (runPipeline env).writeCall = some ⟨readme.content, readme.sha⟩ := by
  obtain ⟨i, rl, hb, rm⟩ := env
  simp only at h1 h2 h3 h5
  subst h1; subst h2; subst h3; subst h5
  simp [runPipeline, h4, replaceSpan_no_pair _ _ h6]

/-- Witness for C10: a marker-free README "hello" is written back
byte-identical. -/
theorem no_marker_pair_writes_unchanged_witness :
    (runPipeline ⟨some ⟨"u", "i"⟩, some [], some [some [12]],
        some ⟨"hello".data, "sha1"⟩⟩).writeCall
      = some ⟨"hello".data, "sha1"⟩ :=
  no_marker_pair_writes_unchanged _ ⟨"u", "i"⟩ [] [some [12]]
    ⟨"hello".data, "sha1"⟩ rfl rfl rfl (by decide) rfl (by decide)

end ProductiveBox
